import Mathlib

/-!
Shallow embedding of the Metamorpics conversion workflow controller
(`src/app/page.tsx`): a single React component wiring a drop zone, a
target-format selector, a quality slider, a convert action and a download
action to three external services (HEIC conversion, generic re-compression,
canvas re-encoding).

The component's React state hooks become the fields of `AppState`.  The
browser-level resources and logs that the claims talk about (object-URL
handles from `URL.createObjectURL`, pending `img.onload → canvas.toBlob`
pipelines, `console.error` calls, calls into the re-compression service,
`canvas.toBlob` invocations and `saveAs` invocations) are tracked in a
`World` wrapping the state.  The external services are oracles in `Env`;
`none` models a lazily-loaded module handle that has not resolved yet.

Asynchronous structure of `handleConvert` is modelled with two steps:
`handleConvertStep` runs the handler to its completion boundary (for the
HEIC branch: through the awaited `heicTo` call and the `finally` clause;
for the generic branch: through the awaited `imageCompression` call, the
registration of the `img.onload` closure, the early `return` and the
`finally` clause), and `fireLoad` fires a registered load pipeline
(`img.onload` sizing the canvas to the image's natural dimensions, drawing
it, and calling `canvas.toBlob`).
-/

namespace Metamorpics

/-! ### JavaScript string primitives

`String.prototype.split` with a one-character separator, and array
indexing whose out-of-range result (`undefined`) is rendered as the string
"undefined" by template-literal interpolation. -/

def splitOnChar (c : Char) : List Char → List (List Char)
  | [] => [[]]
  | x :: xs =>
    if x = c then [] :: splitOnChar c xs
    else
      match splitOnChar c xs with
      | [] => [[x]]
      | y :: ys => (x :: y) :: ys

def jsSplitOn (c : Char) (s : String) : List String :=
  (splitOnChar c s.data).map (fun l => String.mk l)

def jsIndexD (l : List String) (i : Nat) : String :=
  l.getD i "undefined"

/-! ### Data model -/

structure Blob where
  mimeType : String
  data : Nat
deriving DecidableEq

structure File where
  name : String
  fileType : String
  data : Nat
deriving DecidableEq

/-- The options record passed to `browser-image-compression`
(interface `ImageCompressionOptions`, `page.tsx` lines 9-18). -/
structure ImageCompressionOptions where
  maxSizeMB : Int
  maxWidthOrHeight : Int
  useWebWorker : Option Bool
  maxIteration : Option Int
  exifOrientation : Option Int
  fileType : Option String
  initialQuality : Option ℚ
  alwaysKeepResolution : Option Bool
deriving DecidableEq

structure FormatOption where
  value : String
  label : String
deriving DecidableEq

/-- `STANDARD_FORMATS` (`page.tsx` lines 55-69). -/
def STANDARD_FORMATS : List (String × List FormatOption) :=
  [("Yaygın Formatlar",
    [⟨"image/jpeg", "JPEG/JPG - En yaygın fotoğraf formatı"⟩,
     ⟨"image/png", "PNG - Kayıpsız sıkıştırma"⟩,
     ⟨"image/gif", "GIF - Animasyon desteği"⟩]),
   ("Modern Web Formatları",
    [⟨"image/webp", "WebP - Modern web için optimize"⟩,
     ⟨"image/avif", "AVIF - AV1 tabanlı yeni nesil format"⟩]),
   ("Temel Formatlar",
    [⟨"image/bmp", "BMP - Windows Bitmap"⟩,
     ⟨"image/tiff", "TIFF - Yüksek kaliteli baskı"⟩])]

/-- `HEIC_FORMATS` (`page.tsx` lines 71-76). -/
def HEIC_FORMATS : List (String × List FormatOption) :=
  [("HEIC Dönüşüm Formatları",
    [⟨"image/jpeg", "JPEG/JPG - En yaygın fotoğraf formatı"⟩,
     ⟨"image/png", "PNG - Kayıpsız sıkıştırma"⟩])]

/-- The React state hooks of `Home` (`page.tsx` lines 79-87; `isClient`
is presentational and omitted).  `previewUrl` holds an object-URL handle. -/
structure AppState where
  quality : Int
  targetFormat : String
  isConverting : Bool
  previewUrl : Option Nat
  convertedBlob : Option Blob
  originalFileName : String
  selectedFile : Option File
  isHeicFile : Bool
deriving DecidableEq

/-- A registered `img.onload` closure of the generic conversion path:
the compressed intermediate whose object URL was assigned to `img.src`,
with the `targetFormat` and `quality` values captured by the closure. -/
structure PendingLoad where
  compressed : File
  tFormat : String
  q : Int
deriving DecidableEq

/-- The component state plus the browser resources and observable calls the
component makes.  `allocatedHandles` records every `URL.createObjectURL`
call; `revokedHandles` records every `URL.revokeObjectURL` call (the source
contains none). -/
structure World where
  st : AppState
  nextHandle : Nat
  allocatedHandles : List Nat
  revokedHandles : List Nat
  pendingLoads : List PendingLoad
  errorLog : List String
  compressionCalls : List (File × ImageCompressionOptions)
  toBlobCalls : List (Nat × Nat × String × ℚ)
  saveCalls : List (Blob × String)
deriving DecidableEq

/-- The lazily-loaded module handles (`page.tsx` lines 41-53) and the
browser primitives.  A `none` handle models a dynamic import that has not
resolved.  `decode` gives an image's natural dimensions when it loads;
`toBlob` is `canvas.toBlob`, which may return `none` (encode failure) or a
blob whose MIME type the browser chose (silent substitution on an
unsupported requested type). -/
structure Env where
  imageCompression : Option (File → ImageCompressionOptions → Except String File)
  heicTo : Option (File → String → ℚ → Except String Blob)
  isHeic : Option (File → Except String Bool)
  decode : File → Option (Nat × Nat)
  toBlob : Nat → Nat → String → ℚ → Option Blob

/-! ### Operations -/

/-- `URL.createObjectURL`: allocates a fresh handle, never revoked by this
program. -/
def allocURL (w : World) : Nat × World :=
  (w.nextHandle,
   { w with nextHandle := w.nextHandle + 1,
            allocatedHandles := w.allocatedHandles ++ [w.nextHandle] })

/-- The `setQuality` state setter; the slider's `onChange` passes
`Number(e.target.value)` to it verbatim (`page.tsx` line 268). -/
def setQuality (v : Int) (s : AppState) : AppState :=
  { s with quality := v }

/-- The `setTargetFormat` state setter (`page.tsx` line 244). -/
def setTargetFormat (v : String) (s : AppState) : AppState :=
  { s with targetFormat := v }

/-- The format select's `onChange` handler. -/
def selectTargetFormat (v : String) (w : World) : World :=
  { w with st := setTargetFormat v w.st }

/-- File-name derivation inside `handleDownload` (`page.tsx` lines 95-98):
`targetFormat.split('/')[1]` for the extension, and
`originalFileName.split('.')[0]` (text before the first dot) for the base,
with `converted-image` when `originalFileName` is empty (falsy). -/
def downloadFileName (s : AppState) : String :=
  let extension := jsIndexD (jsSplitOn '/' s.targetFormat) 1
  if s.originalFileName = "" then "converted-image." ++ extension
  else jsIndexD (jsSplitOn '.' s.originalFileName) 0 ++ "." ++ extension

/-- `handleDownload` (`page.tsx` lines 93-101): when a converted blob is
present, call `saveAs(convertedBlob, fileName)`. -/
def handleDownload (w : World) : World :=
  match w.st.convertedBlob with
  | none => w
  | some b => { w with saveCalls := w.saveCalls ++ [(b, downloadFileName w.st)] }

/-- `console.error('Dönüştürme hatası:', error)` (`page.tsx` line 155). -/
def convertErrorMsg : String := "Dönüştürme hatası:"

/-- `console.error('Dosya kontrolü sırasında hata:', error)` (line 180). -/
def dropErrorMsg : String := "Dosya kontrolü sırasında hata:"

/-- The compression options literal passed to `imageCompression`
(`page.tsx` lines 122-126). -/
def convertCompressionOptions : ImageCompressionOptions :=
  { maxSizeMB := 1, maxWidthOrHeight := 1920, useWebWorker := some true,
    maxIteration := none, exifOrientation := none, fileType := none,
    initialQuality := none, alwaysKeepResolution := none }

/-- The HEIC branch of `handleConvert` (`page.tsx` lines 111-119): await
`heicTo {blob := selectedFile, type := targetFormat, quality := quality/100}`;
on success store the blob and a fresh preview URL; on rejection the `catch`
logs and the `finally` clears `isConverting`.  Entered only when the
`heicTo` handle is non-null, so the `none` branch is unreachable. -/
def convertHeicPath (e : Env) (file : File) (w : World) : World :=
  match e.heicTo with
  | none => w
  | some conv =>
    match conv file w.st.targetFormat ((w.st.quality : ℚ) / 100) with
    | .ok b =>
      let p := allocURL w
      { p.2 with st := { p.2.st with convertedBlob := some b,
                                     previewUrl := some p.1,
                                     isConverting := false } }
    | .error _ =>
      { w with st := { w.st with isConverting := false },
               errorLog := w.errorLog ++ [convertErrorMsg] }

/-- The generic branch of `handleConvert` (`page.tsx` lines 120-153):
if the `imageCompression` handle is null, fall through the `try` (the
`finally` clears `isConverting`); otherwise await the compression call;
on success assign `img.src = URL.createObjectURL(compressedFile)`,
register the `img.onload` closure (capturing the current `targetFormat`
and `quality`) and `return` — the `finally` clears `isConverting` at that
point, before the load fires; on rejection the `catch` logs and the
`finally` clears `isConverting`. -/
def convertGenericPath (e : Env) (file : File) (w : World) : World :=
  match e.imageCompression with
  | none => { w with st := { w.st with isConverting := false } }
  | some comp =>
    let w1 := { w with compressionCalls :=
                  w.compressionCalls ++ [(file, convertCompressionOptions)] }
    match comp file convertCompressionOptions with
    | .error _ =>
      { w1 with st := { w1.st with isConverting := false },
                errorLog := w1.errorLog ++ [convertErrorMsg] }
    | .ok compressed =>
      let p := allocURL w1
      { p.2 with pendingLoads :=
                   p.2.pendingLoads ++ [⟨compressed, w.st.targetFormat, w.st.quality⟩],
                 st := { p.2.st with isConverting := false } }

/-- `handleConvert` up to its completion boundary (`page.tsx` lines
103-159): `if (!selectedFile) return;` — note there is no `isConverting`
guard here — then `setIsConverting(true); setPreviewUrl(null);
setConvertedBlob(null);` and the branch `if (isHeicFile && heicTo) … else
if (imageCompression) …`. -/
def handleConvertStep (e : Env) (w : World) : World :=
  match w.st.selectedFile with
  | none => w
  | some file =>
    let w1 := { w with st := { w.st with isConverting := true,
                                         previewUrl := none,
                                         convertedBlob := none } }
    if w1.st.isHeicFile && e.heicTo.isSome then convertHeicPath e file w1
    else convertGenericPath e file w1

/-- Firing the first registered `img.onload` pipeline (`page.tsx` lines
133-149): the event fires only if the image decodes; the closure sets
`canvas.width`/`canvas.height` to the image's natural dimensions, draws
it, and calls `canvas.toBlob(cb, tFormat, q/100)`.  The callback stores
the blob (whatever the browser produced) and a fresh preview URL when the
blob is non-null, and clears `isConverting` either way. -/
def fireLoad (e : Env) (w : World) : World :=
  match w.pendingLoads with
  | [] => w
  | p :: rest =>
    match e.decode p.compressed with
    | none => w
    | some (wd, ht) =>
      let q : ℚ := (p.q : ℚ) / 100
      let w1 := { w with pendingLoads := rest,
                         toBlobCalls := w.toBlobCalls ++ [(wd, ht, p.tFormat, q)] }
      match e.toBlob wd ht p.tFormat q with
      | some b =>
        let p2 := allocURL w1
        { p2.2 with st := { p2.2.st with convertedBlob := some b,
                                         previewUrl := some p2.1,
                                         isConverting := false } }
      | none => { w1 with st := { w1.st with isConverting := false } }

/-- `onDrop` (`page.tsx` lines 161-182): take the first accepted file;
a null `isHeic` handle throws, and any classification failure is caught
and logged, leaving state untouched; on success store the classification,
reset `targetFormat` to `image/jpeg` only when the file is HEIC
(`fileIsHeic ? 'image/jpeg' : targetFormat`), store the name and the file,
allocate a preview URL for the unmodified input, and clear the converted
blob. -/
def onDrop (e : Env) (files : List File) (w : World) : World :=
  match files with
  | [] => w
  | file :: _ =>
    match e.isHeic with
    | none => { w with errorLog := w.errorLog ++ [dropErrorMsg] }
    | some cls =>
      match cls file with
      | .error _ => { w with errorLog := w.errorLog ++ [dropErrorMsg] }
      | .ok c =>
        let p := allocURL w
        { p.2 with st := { p.2.st with
            isHeicFile := c,
            targetFormat := if c then "image/jpeg" else w.st.targetFormat,
            originalFileName := file.name,
            selectedFile := some file,
            previewUrl := some p.1,
            convertedBlob := none } }

/-- The convert button's `disabled` condition
(`disabled={!selectedFile || isConverting}`, `page.tsx` line 280). -/
def convertButtonDisabled (s : AppState) : Bool :=
  s.selectedFile.isNone || s.isConverting

/-- A user click on the convert button: a disabled button dispatches no
click, otherwise the click runs `handleConvert`. -/
def clickConvert (e : Env) (w : World) : World :=
  if convertButtonDisabled w.st then w else handleConvertStep e w

/-- The initial hook values (`page.tsx` lines 79-87). -/
def initialState : AppState :=
  { quality := 80, targetFormat := "image/jpeg", isConverting := false,
    previewUrl := none, convertedBlob := none, originalFileName := "",
    selectedFile := none, isHeicFile := false }

def initialWorld : World :=
  { st := initialState, nextHandle := 0, allocatedHandles := [],
    revokedHandles := [], pendingLoads := [], errorLog := [],
    compressionCalls := [], toBlobCalls := [], saveCalls := [] }

/-! ### Concrete files and service environments, used to evaluate the
operations on explicit inputs -/

def demoPng : File := { name := "photo.png", fileType := "image/png", data := 1 }

def demoHeic : File := { name := "photo.heic", fileType := "image/heic", data := 2 }

def demoHeic2 : File := { name := "my.photo.heic", fileType := "image/heic", data := 3 }

/-- An environment in which every service is loaded and succeeds:
re-compression returns an intermediate tagged by `data + 100`, HEIC
conversion returns a blob of the requested type tagged by `data + 200`,
classification tests the declared MIME type, images decode at 640×480,
and `canvas.toBlob` honours the requested type. -/
def demoEnv : Env :=
  { imageCompression :=
      some (fun f _ => .ok { name := f.name, fileType := f.fileType, data := f.data + 100 }),
    heicTo := some (fun f t _ => .ok { mimeType := t, data := f.data + 200 }),
    isHeic := some (fun f => .ok (f.fileType == "image/heic")),
    decode := fun _ => some (640, 480),
    toBlob := fun _ _ t _ => some { mimeType := t, data := 300 } }

/-- Like `demoEnv`, but `canvas.toBlob` silently substitutes `image/png`
regardless of the requested type — the browser behaviour on an
unsupported requested encoding. -/
def substEnv : Env :=
  { demoEnv with toBlob := fun _ _ _ _ => some { mimeType := "image/png", data := 9 } }

/-- Like `demoEnv`, but `canvas.toBlob` fails (passes `null` to its
callback). -/
def encodeFailEnv : Env :=
  { demoEnv with toBlob := fun _ _ _ _ => none }

/-- Like `demoEnv`, but the HEIC conversion service rejects. -/
def heicFailEnv : Env :=
  { demoEnv with heicTo := some (fun _ _ _ => .error "heic conversion failed") }

/-- Like `demoEnv`, but the re-compression service rejects. -/
def compressionFailEnv : Env :=
  { demoEnv with imageCompression := some (fun _ _ => .error "compression failed") }

/-- Like `demoEnv`, but the lazily-loaded `imageCompression` module handle
has not resolved yet (still null). -/
def noCompressionEnv : Env :=
  { demoEnv with imageCompression := none }

/-! ### Lemmas about the JavaScript string primitives -/

theorem splitOnChar_of_not_mem (c : Char) (l : List Char) (h : c ∉ l) :
    splitOnChar c l = [l] := by
  induction l with
  | nil => rfl
  | cons x xs ih =>
    have hx : ¬ x = c := fun he => h (he ▸ List.mem_cons_self x xs)
    have hxs : c ∉ xs := fun hm => h (List.mem_cons_of_mem _ hm)
    simp [splitOnChar, hx, ih hxs]

theorem splitOnChar_append (c : Char) (a rest : List Char) (h : c ∉ a) :
    splitOnChar c (a ++ c :: rest) = a :: splitOnChar c rest := by
  induction a with
  | nil => simp [splitOnChar]
  | cons x xs ih =>
    have hx : ¬ x = c := fun he => h (he ▸ List.mem_cons_self x xs)
    have hxs : c ∉ xs := fun hm => h (List.mem_cons_of_mem _ hm)
    simp only [List.cons_append, splitOnChar, hx, if_false, List.append_eq, ih hxs]

theorem jsIndexD_split_head (c : Char) (s : String) (base rest : List Char)
    (hd : s.data = base ++ c :: rest) (hb : c ∉ base) :
    jsIndexD (jsSplitOn c s) 0 = String.mk base := by
  unfold jsSplitOn jsIndexD
  rw [hd, splitOnChar_append c base rest hb]
  rfl

theorem jsIndexD_split_second (c : Char) (s : String) (t sub : List Char)
    (hd : s.data = t ++ c :: sub) (ht : c ∉ t) (hs : c ∉ sub) :
    jsIndexD (jsSplitOn c s) 1 = String.mk sub := by
  unfold jsSplitOn jsIndexD
  rw [hd, splitOnChar_append c t sub ht, splitOnChar_of_not_mem c sub hs]
  rfl

theorem downloadFileName_eq (s : AppState) (base rest t sub : List Char)
    (hname : s.originalFileName.data = base ++ '.' :: rest)
    (hb : ('.' : Char) ∉ base)
    (htf : s.targetFormat.data = t ++ '/' :: sub)
    (ht : ('/' : Char) ∉ t) (hsub : ('/' : Char) ∉ sub)
    (hne : ¬ s.originalFileName = "") :
    downloadFileName s = String.mk base ++ "." ++ String.mk sub := by
  simp only [downloadFileName, if_neg hne,
    jsIndexD_split_head '.' s.originalFileName base rest hname hb,
    jsIndexD_split_second '/' s.targetFormat t sub htf ht hsub]

theorem downloadFileName_placeholder (s : AppState) (t sub : List Char)
    (htf : s.targetFormat.data = t ++ '/' :: sub)
    (ht : ('/' : Char) ∉ t) (hsub : ('/' : Char) ∉ sub)
    (h0 : s.originalFileName = "") :
    downloadFileName s = "converted-image." ++ String.mk sub := by
  simp only [downloadFileName, if_pos h0,
    jsIndexD_split_second '/' s.targetFormat t sub htf ht hsub]

theorem handleDownload_some (w : World) (b : Blob)
    (h : w.st.convertedBlob = some b) :
    handleDownload w = { w with saveCalls := w.saveCalls ++ [(b, downloadFileName w.st)] } := by
  unfold handleDownload
  rw [h]

theorem handleConvertStep_heic_error (e : Env) (w : World) (f : File)
    (conv : File → String → ℚ → Except String Blob) (msg : String)
    (hsel : w.st.selectedFile = some f)
    (hheic : w.st.isHeicFile = true)
    (hconv : e.heicTo = some conv)
    (herr : conv f w.st.targetFormat ((w.st.quality : ℚ) / 100) = .error msg) :
    handleConvertStep e w =
      { w with st := { w.st with isConverting := false, previewUrl := none,
                                 convertedBlob := none },
               errorLog := w.errorLog ++ [convertErrorMsg] } := by
  simp [handleConvertStep, convertHeicPath, hsel, hheic, hconv, herr]

theorem handleConvertStep_generic_error (e : Env) (w : World) (f : File)
    (comp : File → ImageCompressionOptions → Except String File) (msg : String)
    (hsel : w.st.selectedFile = some f)
    (hheic : w.st.isHeicFile = false)
    (hcomp : e.imageCompression = some comp)
    (herr : comp f convertCompressionOptions = .error msg) :
    handleConvertStep e w =
      { w with st := { w.st with isConverting := false, previewUrl := none,
                                 convertedBlob := none },
               errorLog := w.errorLog ++ [convertErrorMsg],
               compressionCalls := w.compressionCalls ++ [(f, convertCompressionOptions)] } := by
  simp [handleConvertStep, convertGenericPath, hsel, hheic, hcomp, herr]

theorem handleConvertStep_generic_ok (e : Env) (w : World) (f interm : File)
    (comp : File → ImageCompressionOptions → Except String File)
    (hsel : w.st.selectedFile = some f)
    (hheic : w.st.isHeicFile = false)
    (hcomp : e.imageCompression = some comp)
    (hok : comp f convertCompressionOptions = .ok interm) :
    handleConvertStep e w =
      { w with
        nextHandle := w.nextHandle + 1,
        allocatedHandles := w.allocatedHandles ++ [w.nextHandle],
        pendingLoads := w.pendingLoads ++ [⟨interm, w.st.targetFormat, w.st.quality⟩],
        compressionCalls := w.compressionCalls ++ [(f, convertCompressionOptions)],
        st := { w.st with isConverting := false, previewUrl := none,
                          convertedBlob := none } } := by
  simp [handleConvertStep, convertGenericPath, allocURL, hsel, hheic, hcomp, hok]

theorem fireLoad_some (e : Env) (w : World) (p : PendingLoad) (rest : List PendingLoad)
    (wd ht : Nat) (b : Blob)
    (hpend : w.pendingLoads = p :: rest)
    (hdec : e.decode p.compressed = some (wd, ht))
    (henc : e.toBlob wd ht p.tFormat ((p.q : ℚ) / 100) = some b) :
    fireLoad e w =
      { w with pendingLoads := rest,
               toBlobCalls := w.toBlobCalls ++ [(wd, ht, p.tFormat, (p.q : ℚ) / 100)],
               nextHandle := w.nextHandle + 1,
               allocatedHandles := w.allocatedHandles ++ [w.nextHandle],
               st := { w.st with convertedBlob := some b, previewUrl := some w.nextHandle,
                                 isConverting := false } } := by
  simp [fireLoad, allocURL, hpend, hdec, henc]

theorem fireLoad_none (e : Env) (w : World) (p : PendingLoad) (rest : List PendingLoad)
    (wd ht : Nat)
    (hpend : w.pendingLoads = p :: rest)
    (hdec : e.decode p.compressed = some (wd, ht))
    (henc : e.toBlob wd ht p.tFormat ((p.q : ℚ) / 100) = none) :
    fireLoad e w =
      { w with pendingLoads := rest,
               toBlobCalls := w.toBlobCalls ++ [(wd, ht, p.tFormat, (p.q : ℚ) / 100)],
               st := { w.st with isConverting := false } } := by
  simp [fireLoad, allocURL, hpend, hdec, henc]

/-! ### The claims -/

/-- Claim C1 (code bug in `handleConvert`): the claim says a second
`convert()` invocation while a conversion is in flight is rejected or
ignored.  Evaluating the code at the failing input refutes this: after a
non-HEIC file is dropped and convert is clicked once, the generic
conversion is still in flight (one registered `img.onload → toBlob`
pipeline), yet the `finally` clause already cleared `isConverting` at the
early `return`, so the convert button is enabled again and a second click
runs a full second conversion concurrently — two pending pipelines that
race on the converted-blob slot — instead of being rejected or ignored. -/
theorem claim1_second_convert_runs_concurrently :
    (clickConvert demoEnv (onDrop demoEnv [demoPng] initialWorld)).pendingLoads.length = 1 ∧
    (clickConvert demoEnv (onDrop demoEnv [demoPng] initialWorld)).st.isConverting = false ∧
    convertButtonDisabled (clickConvert demoEnv (onDrop demoEnv [demoPng] initialWorld)).st
      = false ∧
    (clickConvert demoEnv
      (clickConvert demoEnv (onDrop demoEnv [demoPng] initialWorld))).pendingLoads.length = 2 :=
  ⟨rfl, rfl, rfl, rfl⟩

/-- Claim C4, counterexample: dropping a successfully classified non-HEIC
file does not reset `targetFormat` to the default `image/jpeg` — the code
keeps the current selection (`fileIsHeic ? 'image/jpeg' : targetFormat`).
Here the selection is `image/webp` before the drop and remains so after. -/
theorem claim4_counterexample :
    (onDrop demoEnv [demoPng]
      (selectTargetFormat "image/webp" initialWorld)).st.targetFormat = "image/webp" ∧
    ("image/webp" : String) ≠ "image/jpeg" :=
  ⟨rfl, by decide⟩

/-- Claim C4 as amended: on a successfully classified candidate,
`onDrop` replaces the SourceFile, clears any ConversionResult, allocates a
preview handle for the unmodified input, and sets `targetFormat` to
`image/jpeg` when the file is HEIC while leaving it unchanged otherwise. -/
theorem claim4_amended (e : Env) (w : World) (file : File) (rest : List File)
    (cls : File → Except String Bool) (c : Bool)
    (h1 : e.isHeic = some cls) (h2 : cls file = .ok c) :
    onDrop e (file :: rest) w =
      { w with
        nextHandle := w.nextHandle + 1,
        allocatedHandles := w.allocatedHandles ++ [w.nextHandle],
        st := { w.st with
          isHeicFile := c,
          targetFormat := if c then "image/jpeg" else w.st.targetFormat,
          originalFileName := file.name,
          selectedFile := some file,
          previewUrl := some w.nextHandle,
          convertedBlob := none } } := by
  simp [onDrop, allocURL, h1, h2]

/-- Claim C4 witness: the amended statement evaluated on a concrete
non-HEIC drop. -/
theorem claim4_witness :
    (onDrop demoEnv [demoPng] initialWorld).st.selectedFile = some demoPng ∧
    (onDrop demoEnv [demoPng] initialWorld).st.convertedBlob = none ∧
    (onDrop demoEnv [demoPng] initialWorld).st.previewUrl = some 0 ∧
    (onDrop demoEnv [demoPng] initialWorld).st.targetFormat = "image/jpeg" := by
  rw [claim4_amended demoEnv initialWorld demoPng []
      (fun f => .ok (f.fileType == "image/heic")) false rfl rfl]
  exact ⟨rfl, rfl, rfl, rfl⟩

/-- Claim C6, counterexample: `setQuality` is the raw state setter — the
slider's `onChange` passes `Number(e.target.value)` through unchanged and
no clamping exists in the component — so a value above 100 is stored out
of range, contradicting "never stored out of range". -/
theorem claim6_counterexample :
    (setQuality 150 initialState).quality = 150 ∧
    ¬ ((setQuality 150 initialState).quality ≤ 100) :=
  ⟨rfl, by decide⟩

/-- Claim C6 as amended: `setQuality` stores the given value verbatim and
touches no other field; the range control (`min="0" max="100"`) is what
restricts the values it receives, so any slider-emitted value in [0, 100]
is stored in range. -/
theorem claim6_amended (v : Int) (s : AppState) (h0 : 0 ≤ v) (h100 : v ≤ 100) :
    (setQuality v s).quality = v ∧
    0 ≤ (setQuality v s).quality ∧ (setQuality v s).quality ≤ 100 ∧
    (setQuality v s).targetFormat = s.targetFormat ∧
    (setQuality v s).isConverting = s.isConverting ∧
    (setQuality v s).previewUrl = s.previewUrl ∧
    (setQuality v s).convertedBlob = s.convertedBlob ∧
    (setQuality v s).originalFileName = s.originalFileName ∧
    (setQuality v s).selectedFile = s.selectedFile ∧
    (setQuality v s).isHeicFile = s.isHeicFile :=
  ⟨rfl, h0, h100, rfl, rfl, rfl, rfl, rfl, rfl, rfl⟩

/-- Claim C6 witness: the amended statement evaluated at value 77. -/
theorem claim6_witness :
    (setQuality 77 initialState).quality = 77 ∧
    0 ≤ (setQuality 77 initialState).quality ∧
    (setQuality 77 initialState).quality ≤ 100 ∧
    (setQuality 77 initialState).targetFormat = initialState.targetFormat ∧
    (setQuality 77 initialState).isConverting = initialState.isConverting ∧
    (setQuality 77 initialState).previewUrl = initialState.previewUrl ∧
    (setQuality 77 initialState).convertedBlob = initialState.convertedBlob ∧
    (setQuality 77 initialState).originalFileName = initialState.originalFileName ∧
    (setQuality 77 initialState).selectedFile = initialState.selectedFile ∧
    (setQuality 77 initialState).isHeicFile = initialState.isHeicFile :=
  claim6_amended 77 initialState (by decide) (by decide)

/-- Claim C7 (code bug): the source never calls `URL.revokeObjectURL`, so
previously allocated preview handles are never released when superseded.
Evaluating a session — drop a file (handle 0), convert it (handles 1 and 2
for the intermediate and the result), drop another file (handle 3) — all
four handles are live and none was ever revoked, so the set of live
handles grows without bound, contradicting the claim. -/
theorem claim7_preview_handles_never_released :
    (onDrop demoEnv [demoHeic]
      (fireLoad demoEnv (clickConvert demoEnv
        (onDrop demoEnv [demoPng] initialWorld)))).allocatedHandles = [0, 1, 2, 3] ∧
    (onDrop demoEnv [demoHeic]
      (fireLoad demoEnv (clickConvert demoEnv
        (onDrop demoEnv [demoPng] initialWorld)))).revokedHandles = [] :=
  ⟨rfl, rfl⟩

/-- Claim C10: invoking `handleConvert` on a non-HEIC selected file while
the lazily-loaded `imageCompression` handle is still null clears the
preview reference and the converted blob, then terminates (the `finally`
clearing `isConverting`) with no result, no pending work and no error
report: the whole effect is exactly those three state fields. -/
theorem claim10_convert_without_compression (e : Env) (w : World) (f : File)
    (hsel : w.st.selectedFile = some f)
    (hheic : w.st.isHeicFile = false)
    (hcomp : e.imageCompression = none) :
    handleConvertStep e w
      = { w with st := { w.st with isConverting := false, previewUrl := none,
                                   convertedBlob := none } } := by
  simp [handleConvertStep, convertGenericPath, hsel, hheic, hcomp]

/-- Claim C10 witness: the statement evaluated on a concrete non-HEIC file
with the compression module handle still null. -/
theorem claim10_witness :
    (handleConvertStep noCompressionEnv
      (onDrop noCompressionEnv [demoPng] initialWorld)).st.previewUrl = none ∧
    (handleConvertStep noCompressionEnv
      (onDrop noCompressionEnv [demoPng] initialWorld)).st.convertedBlob = none ∧
    (handleConvertStep noCompressionEnv
      (onDrop noCompressionEnv [demoPng] initialWorld)).st.isConverting = false ∧
    (handleConvertStep noCompressionEnv
      (onDrop noCompressionEnv [demoPng] initialWorld)).errorLog = [] := by
  rw [claim10_convert_without_compression noCompressionEnv
      (onDrop noCompressionEnv [demoPng] initialWorld) demoPng rfl rfl rfl]
  exact ⟨rfl, rfl, rfl, rfl⟩

/-- Claim C2, counterexample: with a non-HEIC file selected and
`image/tiff` requested, a re-encoding primitive that silently substitutes
`image/png` has its substituted blob stored into the ConversionResult
unchanged, and no error is surfaced (the error log stays empty) — the code
never compares the produced blob's type with the requested one. -/
theorem claim2_counterexample :
    (fireLoad substEnv (clickConvert substEnv (selectTargetFormat "image/tiff"
       (onDrop substEnv [demoPng] initialWorld)))).st.convertedBlob
      = some { mimeType := "image/png", data := 9 } ∧
    (fireLoad substEnv (clickConvert substEnv (selectTargetFormat "image/tiff"
       (onDrop substEnv [demoPng] initialWorld)))).st.targetFormat = "image/tiff" ∧
    (fireLoad substEnv (clickConvert substEnv (selectTargetFormat "image/tiff"
       (onDrop substEnv [demoPng] initialWorld)))).errorLog = [] ∧
    ("image/png" : String) ≠ "image/tiff" :=
  ⟨rfl, rfl, rfl, by decide⟩

/-- Claim C2 as amended: on the generic path, `convert()` stores whatever
blob the re-encoding primitive produces — including one whose MIME type
silently differs from the requested target — directly into the
ConversionResult, and surfaces no error: there is no UnsupportedTarget
condition in the code (flagged as an open question by the spec). -/
theorem claim2_amended (e : Env) (w : World) (f interm : File)
    (comp : File → ImageCompressionOptions → Except String File)
    (wd ht : Nat) (b : Blob)
    (hp : w.pendingLoads = [])
    (hsel : w.st.selectedFile = some f)
    (hheic : w.st.isHeicFile = false)
    (hcomp : e.imageCompression = some comp)
    (hok : comp f convertCompressionOptions = .ok interm)
    (hdec : e.decode interm = some (wd, ht))
    (henc : e.toBlob wd ht w.st.targetFormat ((w.st.quality : ℚ) / 100) = some b) :
    (fireLoad e (handleConvertStep e w)).st.convertedBlob = some b ∧
    (fireLoad e (handleConvertStep e w)).st.targetFormat = w.st.targetFormat ∧
    (fireLoad e (handleConvertStep e w)).errorLog = w.errorLog := by
  rw [handleConvertStep_generic_ok e w f interm comp hsel hheic hcomp hok]
  rw [fireLoad_some e _ ⟨interm, w.st.targetFormat, w.st.quality⟩ [] wd ht b
      (by simp [hp]) hdec henc]
  exact ⟨rfl, rfl, rfl⟩

/-- Claim C2 witness: the amended statement evaluated on a concrete run
in which the primitive substitutes `image/png` for a requested
`image/bmp`. -/
theorem claim2_witness :
    (fireLoad substEnv (handleConvertStep substEnv (selectTargetFormat "image/bmp"
       (onDrop substEnv [demoPng] initialWorld)))).st.convertedBlob
      = some { mimeType := "image/png", data := 9 } ∧
    (fireLoad substEnv (handleConvertStep substEnv (selectTargetFormat "image/bmp"
       (onDrop substEnv [demoPng] initialWorld)))).st.targetFormat
      = (selectTargetFormat "image/bmp"
          (onDrop substEnv [demoPng] initialWorld)).st.targetFormat ∧
    (fireLoad substEnv (handleConvertStep substEnv (selectTargetFormat "image/bmp"
       (onDrop substEnv [demoPng] initialWorld)))).errorLog
      = (selectTargetFormat "image/bmp"
          (onDrop substEnv [demoPng] initialWorld)).errorLog :=
  claim2_amended substEnv
    (selectTargetFormat "image/bmp" (onDrop substEnv [demoPng] initialWorld))
    demoPng { name := "photo.png", fileType := "image/png", data := 101 }
    (fun f _ => .ok { name := f.name, fileType := f.fileType, data := f.data + 100 })
    640 480 { mimeType := "image/png", data := 9 }
    rfl rfl rfl rfl rfl rfl rfl

/-- Claim C5, counterexample: when the re-encode primitive fails
(`canvas.toBlob` passes `null` to its callback), the state does return to
file-selected with no result, but the failure is silently swallowed — the
error log stays empty, contradicting "the failure is reported to the
caller". -/
theorem claim5_counterexample :
    (fireLoad encodeFailEnv (clickConvert encodeFailEnv
       (onDrop encodeFailEnv [demoPng] initialWorld))).errorLog = [] ∧
    (fireLoad encodeFailEnv (clickConvert encodeFailEnv
       (onDrop encodeFailEnv [demoPng] initialWorld))).st.convertedBlob = none ∧
    (fireLoad encodeFailEnv (clickConvert encodeFailEnv
       (onDrop encodeFailEnv [demoPng] initialWorld))).st.selectedFile = some demoPng ∧
    (fireLoad encodeFailEnv (clickConvert encodeFailEnv
       (onDrop encodeFailEnv [demoPng] initialWorld))).st.isConverting = false :=
  ⟨rfl, rfl, rfl, rfl⟩

/-- Claim C5 as amended: on any service failure `convert()` leaves the
selected file intact, keeps the result absent and ends not converting; the
failure is reported (via the console) when the HEIC service or the
re-compression service rejects, but a re-encode primitive failure (null
blob) is silently ignored — no report is made. -/
theorem claim5_amended :
    (∀ (e : Env) (w : World) (f : File)
       (conv : File → String → ℚ → Except String Blob) (msg : String),
       w.st.selectedFile = some f → w.st.isHeicFile = true →
       e.heicTo = some conv →
       conv f w.st.targetFormat ((w.st.quality : ℚ) / 100) = .error msg →
       handleConvertStep e w =
         { w with st := { w.st with isConverting := false, previewUrl := none,
                                    convertedBlob := none },
                  errorLog := w.errorLog ++ [convertErrorMsg] }) ∧
    (∀ (e : Env) (w : World) (f : File)
       (comp : File → ImageCompressionOptions → Except String File) (msg : String),
       w.st.selectedFile = some f → w.st.isHeicFile = false →
       e.imageCompression = some comp →
       comp f convertCompressionOptions = .error msg →
       handleConvertStep e w =
         { w with st := { w.st with isConverting := false, previewUrl := none,
                                    convertedBlob := none },
                  errorLog := w.errorLog ++ [convertErrorMsg],
                  compressionCalls := w.compressionCalls ++ [(f, convertCompressionOptions)] }) ∧
    (∀ (e : Env) (w : World) (f interm : File)
       (comp : File → ImageCompressionOptions → Except String File) (wd ht : Nat),
       w.pendingLoads = [] →
       w.st.selectedFile = some f → w.st.isHeicFile = false →
       e.imageCompression = some comp →
       comp f convertCompressionOptions = .ok interm →
       e.decode interm = some (wd, ht) →
       e.toBlob wd ht w.st.targetFormat ((w.st.quality : ℚ) / 100) = none →
       (fireLoad e (handleConvertStep e w)).st.selectedFile = w.st.selectedFile ∧
       (fireLoad e (handleConvertStep e w)).st.convertedBlob = none ∧
       (fireLoad e (handleConvertStep e w)).st.isConverting = false ∧
       (fireLoad e (handleConvertStep e w)).errorLog = w.errorLog) := by
  refine ⟨?_, ?_, ?_⟩
  · intro e w f conv msg hsel hheic hconv herr
    exact handleConvertStep_heic_error e w f conv msg hsel hheic hconv herr
  · intro e w f comp msg hsel hheic hcomp herr
    exact handleConvertStep_generic_error e w f comp msg hsel hheic hcomp herr
  · intro e w f interm comp wd ht hp hsel hheic hcomp hok hdec henc
    rw [handleConvertStep_generic_ok e w f interm comp hsel hheic hcomp hok]
    rw [fireLoad_none e _ ⟨interm, w.st.targetFormat, w.st.quality⟩ [] wd ht
        (by simp [hp]) hdec henc]
    exact ⟨rfl, rfl, rfl, rfl⟩

/-- Claim C5 witness: the amended statement evaluated on three concrete
failing runs — a rejecting HEIC service, a rejecting re-compression
service, and a null-returning re-encode primitive. -/
theorem claim5_witness :
    (handleConvertStep heicFailEnv (onDrop heicFailEnv [demoHeic] initialWorld)).errorLog
      = (onDrop heicFailEnv [demoHeic] initialWorld).errorLog ++ [convertErrorMsg] ∧
    (handleConvertStep heicFailEnv
      (onDrop heicFailEnv [demoHeic] initialWorld)).st.convertedBlob = none ∧
    (handleConvertStep compressionFailEnv
      (onDrop compressionFailEnv [demoPng] initialWorld)).errorLog
      = (onDrop compressionFailEnv [demoPng] initialWorld).errorLog ++ [convertErrorMsg] ∧
    (fireLoad encodeFailEnv (handleConvertStep encodeFailEnv
        (onDrop encodeFailEnv [demoPng] initialWorld))).st.isConverting = false := by
  refine ⟨?_, ?_, ?_, ?_⟩
  · rw [claim5_amended.1 heicFailEnv _ demoHeic
        (fun _ _ _ => .error "heic conversion failed") "heic conversion failed"
        rfl rfl rfl rfl]
  · rw [claim5_amended.1 heicFailEnv _ demoHeic
        (fun _ _ _ => .error "heic conversion failed") "heic conversion failed"
        rfl rfl rfl rfl]
  · rw [claim5_amended.2.1 compressionFailEnv _ demoPng
        (fun _ _ => .error "compression failed") "compression failed"
        rfl rfl rfl rfl]
  · exact (claim5_amended.2.2 encodeFailEnv _ demoPng
        { name := "photo.png", fileType := "image/png", data := 101 }
        (fun f _ => .ok { name := f.name, fileType := f.fileType, data := f.data + 100 })
        640 480 rfl rfl rfl rfl rfl rfl rfl).2.2.1

/-- Claim C8: on a non-HEIC selected file with the compression module
loaded, `convert()` first calls the re-compression service with exactly
`maxSizeMB = 1` and `maxWidthOrHeight = 1920`, registers a load pipeline
for the returned intermediate carrying the current target format and
quality, and — when the intermediate decodes at its natural dimensions —
calls `canvas.toBlob` on a surface of exactly those dimensions with the
requested target MIME type and quality fraction `quality/100`. -/
theorem claim8_generic_path (e : Env) (w : World) (f interm : File)
    (comp : File → ImageCompressionOptions → Except String File)
    (wd ht : Nat)
    (hp : w.pendingLoads = [])
    (hsel : w.st.selectedFile = some f)
    (hheic : w.st.isHeicFile = false)
    (hcomp : e.imageCompression = some comp)
    (hok : comp f convertCompressionOptions = .ok interm)
    (hdec : e.decode interm = some (wd, ht)) :
    convertCompressionOptions.maxSizeMB = 1 ∧
    convertCompressionOptions.maxWidthOrHeight = 1920 ∧
    (handleConvertStep e w).compressionCalls
      = w.compressionCalls ++ [(f, convertCompressionOptions)] ∧
    (handleConvertStep e w).pendingLoads
      = [⟨interm, w.st.targetFormat, w.st.quality⟩] ∧
    (fireLoad e (handleConvertStep e w)).toBlobCalls
      = w.toBlobCalls ++ [(wd, ht, w.st.targetFormat, (w.st.quality : ℚ) / 100)] := by
  refine ⟨rfl, rfl, ?_, ?_, ?_⟩
  · rw [handleConvertStep_generic_ok e w f interm comp hsel hheic hcomp hok]
  · rw [handleConvertStep_generic_ok e w f interm comp hsel hheic hcomp hok]
    simp [hp]
  · rw [handleConvertStep_generic_ok e w f interm comp hsel hheic hcomp hok]
    cases henc : e.toBlob wd ht w.st.targetFormat ((w.st.quality : ℚ) / 100) with
    | none =>
      rw [fireLoad_none e _ ⟨interm, w.st.targetFormat, w.st.quality⟩ [] wd ht
          (by simp [hp]) hdec henc]
    | some b =>
      rw [fireLoad_some e _ ⟨interm, w.st.targetFormat, w.st.quality⟩ [] wd ht b
          (by simp [hp]) hdec henc]

/-- Claim C8 witness: the statement evaluated on a concrete non-HEIC run
with the default target format and quality. -/
theorem claim8_witness :
    convertCompressionOptions.maxSizeMB = 1 ∧
    convertCompressionOptions.maxWidthOrHeight = 1920 ∧
    (handleConvertStep demoEnv (onDrop demoEnv [demoPng] initialWorld)).compressionCalls
      = (onDrop demoEnv [demoPng] initialWorld).compressionCalls
        ++ [(demoPng, convertCompressionOptions)] ∧
    (handleConvertStep demoEnv (onDrop demoEnv [demoPng] initialWorld)).pendingLoads
      = [⟨{ name := "photo.png", fileType := "image/png", data := 101 },
          (onDrop demoEnv [demoPng] initialWorld).st.targetFormat,
          (onDrop demoEnv [demoPng] initialWorld).st.quality⟩] ∧
    (fireLoad demoEnv
        (handleConvertStep demoEnv (onDrop demoEnv [demoPng] initialWorld))).toBlobCalls
      = (onDrop demoEnv [demoPng] initialWorld).toBlobCalls
        ++ [(640, 480, (onDrop demoEnv [demoPng] initialWorld).st.targetFormat,
             ((onDrop demoEnv [demoPng] initialWorld).st.quality : ℚ) / 100)] :=
  claim8_generic_path demoEnv (onDrop demoEnv [demoPng] initialWorld) demoPng
    { name := "photo.png", fileType := "image/png", data := 101 }
    (fun f _ => .ok { name := f.name, fileType := f.fileType, data := f.data + 100 })
    640 480 rfl rfl rfl rfl rfl rfl

/-- Claim C3, counterexample: the code derives the base from the text
before the *first* dot (`split('.')[0]`), and the extension from the
*currently selected* `targetFormat`'s literal subtype text
(`targetFormat.split('/')[1]`), not from the result's MIME subtype.
Converting `my.photo.heic` to PNG and then re-selecting JPEG downloads
`my.jpeg` (claim predicts `my.photo.png`); even the claim's own scenario
fails: converting `photo.heic` to `image/jpeg` downloads `photo.jpeg`,
not `photo.jpg`. -/
theorem claim3_counterexample :
    (handleDownload (selectTargetFormat "image/jpeg" (clickConvert demoEnv
       (selectTargetFormat "image/png" (onDrop demoEnv [demoHeic2] initialWorld))))).saveCalls
      = [({ mimeType := "image/png", data := 203 }, "my.jpeg")] ∧
    ("my.jpeg" : String) ≠ "my.photo.png" ∧
    (handleDownload (clickConvert demoEnv (onDrop demoEnv [demoHeic] initialWorld))).saveCalls
      = [({ mimeType := "image/jpeg", data := 202 }, "photo.jpeg")] ∧
    ("photo.jpeg" : String) ≠ "photo.jpg" :=
  ⟨by decide, by decide, by decide, by decide⟩

/-- Claim C3 as amended: `download()` saves the blob under a name formed
from the original file name's text before the *first* dot, with the
extension being the literal subtype text of the currently selected
`targetFormat` (its text after the slash), or the fixed placeholder base
`converted-image` when no original name is known; converting `photo.heic`
to `image/jpeg` and downloading yields `photo.jpeg`. -/
theorem claim3_amended (w : World) (b : Blob) (t sub : List Char)
    (hblob : w.st.convertedBlob = some b)
    (htf : w.st.targetFormat.data = t ++ '/' :: sub)
    (ht : ('/' : Char) ∉ t) (hsub : ('/' : Char) ∉ sub) :
    (∀ base rest : List Char, ('.' : Char) ∉ base →
      w.st.originalFileName.data = base ++ '.' :: rest →
      ¬ w.st.originalFileName = "" →
      (handleDownload w).saveCalls
        = w.saveCalls ++ [(b, String.mk base ++ "." ++ String.mk sub)]) ∧
    (w.st.originalFileName = "" →
      (handleDownload w).saveCalls
        = w.saveCalls ++ [(b, "converted-image." ++ String.mk sub)]) := by
  constructor
  · intro base rest hb hname hne
    rw [handleDownload_some w b hblob,
        downloadFileName_eq w.st base rest t sub hname hb htf ht hsub hne]
  · intro h0
    rw [handleDownload_some w b hblob,
        downloadFileName_placeholder w.st t sub htf ht hsub h0]

/-- Claim C3 witness: the amended statement evaluated on the claim's own
scenario — `photo.heic` converted to `image/jpeg` — which downloads as
`photo.jpeg`. -/
theorem claim3_witness :
    (handleDownload (clickConvert demoEnv (onDrop demoEnv [demoHeic] initialWorld))).saveCalls
      = (clickConvert demoEnv (onDrop demoEnv [demoHeic] initialWorld)).saveCalls
        ++ [({ mimeType := "image/jpeg", data := 202 },
             String.mk "photo".data ++ "." ++ String.mk "jpeg".data)] ∧
    String.mk "photo".data ++ "." ++ String.mk "jpeg".data = "photo.jpeg" :=
  ⟨(claim3_amended (clickConvert demoEnv (onDrop demoEnv [demoHeic] initialWorld))
      { mimeType := "image/jpeg", data := 202 } "image".data "jpeg".data
      (by decide) (by decide) (by decide) (by decide)).1
      "photo".data "heic".data (by decide) (by decide) (by decide),
   by decide⟩

/-- Claim C9: `download()` takes the saved extension from the currently
selected `targetFormat`, not from the stored result's MIME type: changing
the target format after a conversion and downloading changes the saved
extension (whenever the two subtypes differ) while the saved blob — its
bytes and its actual MIME type — is exactly the one from the earlier
conversion. -/
theorem claim9_extension_follows_targetFormat (w : World) (b : Blob)
    (fmt : String) (t sub t2 sub2 base rest : List Char)
    (hblob : w.st.convertedBlob = some b)
    (htf : w.st.targetFormat.data = t ++ '/' :: sub)
    (ht : ('/' : Char) ∉ t) (hsub : ('/' : Char) ∉ sub)
    (hf : fmt.data = t2 ++ '/' :: sub2)
    (ht2 : ('/' : Char) ∉ t2) (hsub2 : ('/' : Char) ∉ sub2)
    (hname : w.st.originalFileName.data = base ++ '.' :: rest)
    (hb : ('.' : Char) ∉ base)
    (hne : ¬ w.st.originalFileName = "") :
    (handleDownload (selectTargetFormat fmt w)).saveCalls
      = w.saveCalls ++ [(b, String.mk base ++ "." ++ String.mk sub2)] ∧
    (handleDownload w).saveCalls
      = w.saveCalls ++ [(b, String.mk base ++ "." ++ String.mk sub)] ∧
    (selectTargetFormat fmt w).st.convertedBlob = some b ∧
    (sub ≠ sub2 →
      String.mk base ++ "." ++ String.mk sub ≠ String.mk base ++ "." ++ String.mk sub2) := by
  refine ⟨?_, ?_, hblob, ?_⟩
  · rw [handleDownload_some (selectTargetFormat fmt w) b hblob,
        downloadFileName_eq (selectTargetFormat fmt w).st base rest t2 sub2 hname hb hf
          ht2 hsub2 hne]
    rfl
  · rw [handleDownload_some w b hblob,
        downloadFileName_eq w.st base rest t sub hname hb htf ht hsub hne]
  · intro hss heq
    apply hss
    have hd := congrArg String.data heq
    simp only [String.data_append, List.append_assoc] at hd
    exact List.append_cancel_left (List.append_cancel_left hd)

/-- Claim C9 witness: converting `my.photo.heic` to JPEG, then selecting
PNG and downloading, saves the JPEG-typed blob of the earlier conversion
under a `.png`-subtyped name, different from the name the original
selection would have produced. -/
theorem claim9_witness :
    (handleDownload (selectTargetFormat "image/png"
       (clickConvert demoEnv (onDrop demoEnv [demoHeic2] initialWorld)))).saveCalls
      = (clickConvert demoEnv (onDrop demoEnv [demoHeic2] initialWorld)).saveCalls
        ++ [({ mimeType := "image/jpeg", data := 203 },
             String.mk "my".data ++ "." ++ String.mk "png".data)] ∧
    (handleDownload (clickConvert demoEnv (onDrop demoEnv [demoHeic2] initialWorld))).saveCalls
      = (clickConvert demoEnv (onDrop demoEnv [demoHeic2] initialWorld)).saveCalls
        ++ [({ mimeType := "image/jpeg", data := 203 },
             String.mk "my".data ++ "." ++ String.mk "jpeg".data)] ∧
    String.mk "my".data ++ "." ++ String.mk "jpeg".data
      ≠ String.mk "my".data ++ "." ++ String.mk "png".data := by
  have h := claim9_extension_follows_targetFormat
    (clickConvert demoEnv (onDrop demoEnv [demoHeic2] initialWorld))
    { mimeType := "image/jpeg", data := 203 } "image/png"
    "image".data "jpeg".data "image".data "png".data "my".data "photo.heic".data
    (by decide) (by decide) (by decide) (by decide) (by decide) (by decide) (by decide)
    (by decide) (by decide) (by decide)
  exact ⟨h.1, h.2.1, h.2.2.2 (by decide)⟩

end Metamorpics
